import Mathlib

/-!
# Verification of the biomedical MQTT agent's analysis pipeline

A shallow embedding in Lean 4 of the core numerical functions of
`src/command/biomed/biomed_1.py`: packet decoding, RR-series cleaning,
time- and frequency-domain HRV statistics, composite risk scores, the
core-temperature heuristic, the sample-rate estimator state machine, and
the alert rule set of `on_message`.

Python floats are modelled as exact rationals (`ℚ`); machine integers as
`ℕ`/`ℤ` with explicit bit operations where the source uses them; Python
`None` as `Option.none`.  Square roots (whose only role in the verified
claims is nullness and sign, never their numeric value) are passed in as
an explicit function argument `sqrtQ`, and the Welch power-spectral
estimate (floating-point FFT numerics) is passed in as an abstract
per-bin function `psd` — the frequency grid itself, which decides
nullness of the band powers, is modelled exactly.
-/

namespace Biomed

/-- Python `clamp(x, lo, hi) = max(lo, min(hi, x))` from the source helpers. -/
def clamp (x lo hi : ℚ) : ℚ := max lo (min hi x)

/-- Threshold `LOW_SQI`, default 0.30. -/
def LOW_SQI : ℚ := 3/10

/-- Threshold `TACHY_BPM`, default 170. -/
def TACHY_BPM : ℚ := 170

/-- Threshold `BRADY_BPM`, default 45. -/
def BRADY_BPM : ℚ := 45

/-- Threshold `LOW_RMSSD_MS`, default 18. -/
def LOW_RMSSD_MS : ℚ := 18

/-- Threshold `HIGH_LFHF`, default 2.5. -/
def HIGH_LFHF : ℚ := 5/2

/-- Threshold `PSI_WARN`, default 6.5. -/
def PSI_WARN : ℚ := 13/2

/-- Threshold `PSI_DANGER`, default 7.5. -/
def PSI_DANGER : ℚ := 15/2

/-- Threshold `IRREGULAR_WARN`, default 0.18. -/
def IRREGULAR_WARN : ℚ := 18/100

/-- Default sample-rate estimate `DEFAULT_FS`, 130 Hz. -/
def DEFAULT_FS : ℚ := 130

/-- The subset of the `metrics` dict consumed by the composite risk scores.
`none` models Python `None` (for `sqi`, it also covers the `.get` default
`0.0` path only in that both gate to a null score). -/
structure Metrics where
  sqi : Option ℚ
  bpm : Option ℚ
  rmssd_ms : Option ℚ
  lf_hf : Option ℚ
  stress_index : Option ℚ
  sampen : Option ℚ
  cvrr : Option ℚ
  ectopy_ratio : Option ℚ

/-- The source's `fatigue_score`: 0–100 composite; each optional input
adds its clamped weighted contribution only when present; `None` iff `bpm`
is `None`. -/
def fatigue_score (m : Metrics) : Option ℚ :=
  match m.bpm with
  | none => none
  | some bpm =>
    let s0 : ℚ := clamp ((bpm - 100) / 80) 0 1 * 30
    let s1 : ℚ := match m.rmssd_ms with
      | none => 0
      | some r => clamp ((25 - r) / 25) 0 1 * 30
    let s2 : ℚ := match m.lf_hf with
      | none => 0
      | some l => clamp ((l - 3/2) / (5/2)) 0 1 * 15
    let s3 : ℚ := match m.stress_index with
      | none => 0
      | some si => clamp ((si - 150) / 250) 0 1 * 15
    let s4 : ℚ := match m.sampen with
      | none => 0
      | some e => clamp ((6/5 - e) / (6/5)) 0 1 * 10
    some (clamp (s0 + s1 + s2 + s3 + s4) 0 100)

/-- The source's `cardiac_risk_score`: quality gate first (`None` when
`sqi` is `None` or below `LOW_SQI`), then HR extremes, irregularity and
ectopy contributions, clamped to 0–100. -/
def cardiac_risk_score (m : Metrics) : Option ℚ :=
  match m.sqi with
  | none => none
  | some sqi =>
    if sqi < LOW_SQI then none
    else
      match m.bpm with
      | none => none
      | some bpm =>
        let s0 : ℚ := if bpm > 175 then 35 else if bpm > 160 then 20 else 0
        let s1 : ℚ := if bpm < 42 then 35 else if bpm < 50 then 15 else 0
        let s2 : ℚ := match m.cvrr with
          | none => 0
          | some c => clamp ((c - 1/10) / (15/100)) 0 1 * 30
        let s3 : ℚ := match m.ectopy_ratio with
          | none => 0
          | some e => clamp (e / (1/10)) 0 1 * 35
        some (clamp (s0 + s1 + s2 + s3) 0 100)

/-- The source's `core_temp_estimate_c`: 37.0 when `hr_bpm` is `None`,
otherwise `clamp(36.8 + 0.018·max(0, hr − baseline) + 0.02·max(0, amb − 25),
36.5, 40.2)` with ambient defaulting to 25. -/
def core_temp_estimate_c (hr_bpm : Option ℚ) (baseline_hr : ℚ)
    (ambient_c : Option ℚ) : ℚ :=
  match hr_bpm with
  | none => 37
  | some hr =>
    let amb := ambient_c.getD 25
    let dhr := max 0 (hr - baseline_hr)
    let tc := 368/10 + 18/1000 * dhr + 2/100 * max 0 (amb - 25)
    clamp tc (365/10) (402/10)

/-- Alert severities used by `on_message`. -/
inductive Severity where
  | info
  | warn
  | danger
deriving DecidableEq, Repr

/-- Alert types appended by the alert section of `on_message`. -/
inductive AlertType where
  | signal_quality
  | tachy
  | brady
  | fatigue_hrv
  | sympathetic_load
  | irregular_rhythm
  | heat_strain
  | fatigue_composite
  | cardiac_concern
deriving DecidableEq, Repr

/-- The alert-construction section of `on_message`, parameterized by the
values computed earlier in the cycle (`sqi` and `bpm` are always numbers
at this point; the rest may be `None`).  Appends in source order. -/
def on_message_alerts (sqi bpm : ℚ) (rmssd_ms lf_hf cvrr psi fscr cr : Option ℚ) :
    List (AlertType × Severity) :=
  (if sqi < LOW_SQI then [(AlertType.signal_quality, Severity.info)] else [])
  ++ (if LOW_SQI ≤ sqi then
        (if bpm > TACHY_BPM then [(AlertType.tachy, Severity.danger)] else [])
        ++ (if bpm < BRADY_BPM then [(AlertType.brady, Severity.danger)] else [])
        ++ (match rmssd_ms with
            | none => []
            | some r =>
              if r < LOW_RMSSD_MS then [(AlertType.fatigue_hrv, Severity.warn)] else [])
        ++ (match lf_hf with
            | none => []
            | some l =>
              if l > HIGH_LFHF then [(AlertType.sympathetic_load, Severity.warn)] else [])
        ++ (match cvrr with
            | none => []
            | some c =>
              if c > IRREGULAR_WARN then [(AlertType.irregular_rhythm, Severity.warn)] else [])
        ++ (match psi with
            | none => []
            | some p =>
              if p ≥ PSI_DANGER then [(AlertType.heat_strain, Severity.danger)]
              else if p ≥ PSI_WARN then [(AlertType.heat_strain, Severity.warn)]
              else [])
        ++ (match fscr with
            | none => []
            | some f => if f ≥ 70 then [(AlertType.fatigue_composite, Severity.warn)] else [])
        ++ (match cr with
            | none => []
            | some c => if c ≥ 70 then [(AlertType.cardiac_concern, Severity.danger)] else [])
      else [])

lemma clamp_nonneg_le (x hi : ℚ) (hhi : 0 ≤ hi) :
    0 ≤ clamp x 0 hi ∧ clamp x 0 hi ≤ hi := by
  unfold clamp
  constructor
  · exact le_max_left 0 _
  · exact max_le hhi (min_le_left _ _)

/-- C1: `cardiac_risk_score` returns null whenever the quality score `sqi`
is null or below `LOW_SQI` (0.30), regardless of the bpm, CVRR or
ectopy-ratio inputs: the quality gate takes precedence over every scoring
contribution. -/
theorem cardiac_risk_score_low_sqi_null (m : Metrics) :
    (m.sqi = none → cardiac_risk_score m = none) ∧
    (∀ q, m.sqi = some q → q < LOW_SQI → cardiac_risk_score m = none) := by
  constructor
  · intro h
    simp [cardiac_risk_score, h]
  · intro q hq hlt
    simp [cardiac_risk_score, hq, hlt]

/-- C1 witness: at `sqi = 0.25` with extreme bpm (300), CVRR and ectopy,
the score is still null. -/
theorem cardiac_risk_score_low_sqi_null_witness :
    cardiac_risk_score ⟨some (1/4), some 300, none, none, none, none, some 9, some 9⟩
      = none :=
  (cardiac_risk_score_low_sqi_null _).2 (1/4) rfl (by norm_num [LOW_SQI])

/-- C2: when `sqi` is below `LOW_SQI`, the emitted alert list is exactly
the single informational signal-quality alert; no tachy, brady, low-RMSSD,
high-LF/HF, irregular-rhythm, heat-strain, fatigue-composite or
cardiac-concern alert fires. -/
theorem on_message_alerts_low_sqi (sqi bpm : ℚ) (rmssd_ms lf_hf cvrr psi fscr cr : Option ℚ)
    (h : sqi < LOW_SQI) :
    on_message_alerts sqi bpm rmssd_ms lf_hf cvrr psi fscr cr
      = [(AlertType.signal_quality, Severity.info)] := by
  simp [on_message_alerts, h, not_le.mpr h]

/-- C2 witness: an extreme cycle (bpm 200, RMSSD 1, LF/HF 9, CVRR 0.9,
PSI 9, scores 99) with `sqi = 0.1` emits only the signal-quality alert. -/
theorem on_message_alerts_low_sqi_witness :
    on_message_alerts (1/10) 200 (some 1) (some 9) (some (9/10)) (some 9)
        (some 99) (some 99)
      = [(AlertType.signal_quality, Severity.info)] :=
  on_message_alerts_low_sqi (1/10) 200 (some 1) (some 9) (some (9/10)) (some 9)
    (some 99) (some 99) (by norm_num [LOW_SQI])

/-- C3: `fatigue_score` is null iff `bpm` is null; each missing optional
input contributes exactly zero (replacing a missing input by its
zero-contribution boundary value — RMSSD 25, LF/HF 1.5, stress index 150,
SampEn 1.2 — leaves the score unchanged); any returned value lies in
[0, 100]. -/
theorem fatigue_score_spec (m : Metrics) :
    (fatigue_score m = none ↔ m.bpm = none) ∧
    (∀ v, fatigue_score m = some v → 0 ≤ v ∧ v ≤ 100) ∧
    (m.rmssd_ms = none →
      fatigue_score m = fatigue_score { m with rmssd_ms := some 25 }) ∧
    (m.lf_hf = none →
      fatigue_score m = fatigue_score { m with lf_hf := some (3/2) }) ∧
    (m.stress_index = none →
      fatigue_score m = fatigue_score { m with stress_index := some 150 }) ∧
    (m.sampen = none →
      fatigue_score m = fatigue_score { m with sampen := some (6/5) }) := by
  refine ⟨?_, ?_, ?_, ?_, ?_, ?_⟩
  · cases h : m.bpm <;> simp [fatigue_score, h]
  · intro v hv
    cases h : m.bpm with
    | none => simp [fatigue_score, h] at hv
    | some bpm =>
      simp only [fatigue_score, h, Option.some.injEq] at hv
      rw [← hv]
      exact clamp_nonneg_le _ 100 (by norm_num)
  · intro h
    cases hb : m.bpm <;> simp [fatigue_score, hb, h, clamp]
  · intro h
    cases hb : m.bpm <;> simp [fatigue_score, hb, h, clamp]
  · intro h
    cases hb : m.bpm <;> simp [fatigue_score, hb, h, clamp]
  · intro h
    cases hb : m.bpm <;> simp [fatigue_score, hb, h, clamp]

/-- C3 witness: with bpm 60 present and all optional inputs missing, the
score is a number in [0, 100] (here in fact 30); the null-iff and
missing-input clauses are discharged at the same metrics record. -/
theorem fatigue_score_spec_witness :
    (fatigue_score ⟨some 1, some 60, none, none, none, none, none, none⟩ ≠ none) ∧
    (0 ≤ (0 : ℚ) ∧ (0 : ℚ) ≤ 100) ∧
    fatigue_score ⟨some 1, some 60, none, none, none, none, none, none⟩
      = fatigue_score ⟨some 1, some 60, some 25, none, none, none, none, none⟩ := by
  have h := fatigue_score_spec ⟨some 1, some 60, none, none, none, none, none, none⟩
  refine ⟨?_, ?_, ?_⟩
  · intro hnone
    have := h.1.mp hnone
    simp at this
  · exact h.2.1 0 (by norm_num [fatigue_score, clamp, min_def, max_def])
  · exact h.2.2.1 rfl

/-- C10: the core-temperature estimate is 37.0 when `hr_bpm` is null and
otherwise always lies in [36.8, 40.2]: the unclamped formula is at least
36.8, so the documented lower clamp bound 36.5 is never binding and the
result is exactly `min 40.2 (unclamped)`. -/
theorem core_temp_estimate_c_range (hr baseline_hr : ℚ) (ambient_c : Option ℚ) :
    core_temp_estimate_c none baseline_hr ambient_c = 37 ∧
    368/10 ≤ core_temp_estimate_c (some hr) baseline_hr ambient_c ∧
    core_temp_estimate_c (some hr) baseline_hr ambient_c ≤ 402/10 ∧
    core_temp_estimate_c (some hr) baseline_hr ambient_c
      = min (402/10)
          (368/10 + 18/1000 * max 0 (hr - baseline_hr)
            + 2/100 * max 0 (ambient_c.getD 25 - 25)) := by
  have h1 : (0:ℚ) ≤ max 0 (hr - baseline_hr) := le_max_left _ _
  have h2 : (0:ℚ) ≤ max 0 (ambient_c.getD 25 - 25) := le_max_left _ _
  set tc : ℚ := 368/10 + 18/1000 * max 0 (hr - baseline_hr)
      + 2/100 * max 0 (ambient_c.getD 25 - 25) with htc
  have htc' : 368/10 ≤ tc := by
    rw [htc]; nlinarith
  have hmin : 368/10 ≤ min (402/10) tc := le_min (by norm_num) htc'
  have hcl : core_temp_estimate_c (some hr) baseline_hr ambient_c
      = min (402/10) tc := by
    show clamp tc (365/10) (402/10) = min (402/10) tc
    unfold clamp
    exact max_eq_right (le_trans (by norm_num) hmin)
  refine ⟨rfl, ?_, ?_, hcl⟩
  · rw [hcl]; exact hmin
  · rw [hcl]; exact min_le_left _ _

/-! ## Sample-rate estimator (`on_message` ingest loop) -/

/-- Per-stream state relevant to the sample-rate estimate: the running
estimate `fs_est`, the previous packet timestamp (ns) and the previous
packet's sample count, as in `StreamState`. -/
structure FsState where
  fs_est : ℚ
  last_ts : Option ℕ
  last_n : Option ℕ

/-- Fresh `StreamState`: `fs_est = DEFAULT_FS`, no previous packet. -/
def initFsState : FsState := ⟨DEFAULT_FS, none, none⟩

/-- One decoded PMD packet as seen by the ingest loop: its (optional)
device timestamp in nanoseconds and its sample count. Malformed packets
(where the parser returned `(None, None)`) are modelled with
`nsamples = 0`, which the loop skips just like empty sample arrays. -/
structure PmdPacket where
  ts : Option ℕ
  nsamples : ℕ

/-- The per-packet body of the ingest loop in `on_message`: skip empty
packets; when the previous timestamp and count are available, the new
timestamp is later, the raw delta exceeds 1 ms, the delta in seconds lies
in (0.001, 2.0) and the instantaneous rate `last_n / dt` lies strictly in
(50, 300) Hz, blend it as `0.9·old + 0.1·new`; otherwise keep `fs_est`
unchanged.  Always record the packet's timestamp and sample count. -/
def ingest_fs (st : FsState) (p : PmdPacket) : FsState :=
  if p.nsamples = 0 then st
  else
    let fs' : ℚ :=
      match st.last_ts, p.ts, st.last_n with
      | some lt, some ts, some ln =>
        if lt < ts ∧ ln ≠ 0 then
          let dt : ℕ := ts - lt
          if 1000000 < dt then
            let dt_sec : ℚ := (dt : ℚ) / 1000000000
            if 1/1000 < dt_sec ∧ dt_sec < 2 then
              let fs_new : ℚ := (ln : ℚ) / dt_sec
              if 50 < fs_new ∧ fs_new < 300 then
                9/10 * st.fs_est + 1/10 * fs_new
              else st.fs_est
            else st.fs_est
          else st.fs_est
        else st.fs_est
      | _, _, _ => st.fs_est
    { fs_est := fs', last_ts := p.ts, last_n := some p.nsamples }

lemma ingest_fs_cases (st : FsState) (p : PmdPacket) :
    (ingest_fs st p).fs_est = st.fs_est ∨
    ∃ fs_new, 50 < fs_new ∧ fs_new < 300 ∧
      (ingest_fs st p).fs_est = 9/10 * st.fs_est + 1/10 * fs_new := by
  unfold ingest_fs
  split
  · exact Or.inl rfl
  · simp only
    split
    · split
      · split
        · split
          · split
            · rename_i hgate
              exact Or.inr ⟨_, hgate.1, hgate.2, rfl⟩
            · exact Or.inl rfl
          · exact Or.inl rfl
        · exact Or.inl rfl
      · exact Or.inl rfl
    all_goals exact Or.inl rfl

lemma ingest_fs_preserves_range (st : FsState) (p : PmdPacket)
    (h₁ : 50 < st.fs_est) (h₂ : st.fs_est < 300) :
    50 < (ingest_fs st p).fs_est ∧ (ingest_fs st p).fs_est < 300 := by
  rcases ingest_fs_cases st p with h | ⟨fs_new, hlo, hhi, h⟩
  · rw [h]; exact ⟨h₁, h₂⟩
  · rw [h]; constructor <;> nlinarith

lemma foldl_ingest_fs_range (pkts : List PmdPacket) :
    ∀ st : FsState, 50 < st.fs_est → st.fs_est < 300 →
      50 < (pkts.foldl ingest_fs st).fs_est ∧
      (pkts.foldl ingest_fs st).fs_est < 300 := by
  induction pkts with
  | nil => intro st h₁ h₂; exact ⟨h₁, h₂⟩
  | cons p ps ih =>
    intro st h₁ h₂
    have hstep := ingest_fs_preserves_range st p h₁ h₂
    exact ih (ingest_fs st p) hstep.1 hstep.2

/-- C5: starting from the default 130 Hz, `fs_est` stays strictly within
(50, 300) Hz after any sequence of ingested packets; every step either
leaves the estimate unchanged (out-of-range or implausible instantaneous
estimates are discarded entirely) or blends `0.9·old + 0.1·fs_new` with an
instantaneous estimate `fs_new` strictly inside the 50–300 Hz gate. -/
theorem fs_est_stays_in_range :
    (∀ pkts : List PmdPacket,
      50 < (pkts.foldl ingest_fs initFsState).fs_est ∧
      (pkts.foldl ingest_fs initFsState).fs_est < 300) ∧
    (∀ (st : FsState) (p : PmdPacket),
      (ingest_fs st p).fs_est = st.fs_est ∨
      ∃ fs_new, 50 < fs_new ∧ fs_new < 300 ∧
        (ingest_fs st p).fs_est = 9/10 * st.fs_est + 1/10 * fs_new) := by
  constructor
  · intro pkts
    exact foldl_ingest_fs_range pkts initFsState (by norm_num [initFsState, DEFAULT_FS])
      (by norm_num [initFsState, DEFAULT_FS])
  · exact ingest_fs_cases

/-! ## 24-bit little-endian sample decoding -/

/-- The source's `s24le_to_int`: assemble the 24-bit value by OR-ing the
shifted bytes, OR in `0xFF000000` when bit 23 is set, mask to 32 bits and
reinterpret as a signed 32-bit integer (the `struct.pack`/`unpack`
round-trip). -/
def s24le_to_int (b0 b1 b2 : ℕ) : ℤ :=
  let v := b0 ||| (b1 <<< 8) ||| (b2 <<< 16)
  let v2 := if v &&& 0x800000 ≠ 0 then v ||| 0xFF000000 else v
  let u := v2 &&& 0xFFFFFFFF
  if u < 2 ^ 31 then (u : ℤ) else (u : ℤ) - 2 ^ 32

lemma s24_or_value (b0 b1 b2 : ℕ) (h0 : b0 < 256) (h1 : b1 < 256) :
    b0 ||| (b1 <<< 8) ||| (b2 <<< 16) = b0 + 256 * b1 + 65536 * b2 := by
  have e1 : b1 <<< 8 = 2 ^ 8 * b1 := by
    rw [Nat.shiftLeft_eq]; ring
  have e2 : b2 <<< 16 = 2 ^ 16 * b2 := by
    rw [Nat.shiftLeft_eq]; ring
  have h01 : b0 ||| (b1 <<< 8) = 2 ^ 8 * b1 + b0 := by
    rw [e1, Nat.lor_comm, ← Nat.mul_add_lt_is_or h0]
  have hlt : 2 ^ 8 * b1 + b0 < 2 ^ 16 := by
    have : 2 ^ 8 * b1 ≤ 2 ^ 8 * 255 := by
      apply Nat.mul_le_mul_left; omega
    omega
  rw [h01, e2, Nat.lor_comm, ← Nat.mul_add_lt_is_or hlt]
  ring

/-- C9: `s24le_to_int` decodes every 3-byte little-endian value to the
two's-complement interpretation of the 24-bit word: the result is `v`
itself when `v < 2^23` and `v − 2^24` otherwise, where
`v = b0 + 256·b1 + 65536·b2`; in particular `0xFFFFFF ↦ -1`,
`0x7FFFFF ↦ 8388607` and `0x800000 ↦ -8388608`. -/
theorem s24le_to_int_twos_complement (b0 b1 b2 : ℕ)
    (h0 : b0 < 256) (h1 : b1 < 256) (h2 : b2 < 256) :
    (s24le_to_int b0 b1 b2 =
      if b0 + 256 * b1 + 65536 * b2 < 2 ^ 23
      then ((b0 + 256 * b1 + 65536 * b2 : ℕ) : ℤ)
      else ((b0 + 256 * b1 + 65536 * b2 : ℕ) : ℤ) - 2 ^ 24) ∧
    s24le_to_int 255 255 255 = -1 ∧
    s24le_to_int 255 255 127 = 8388607 ∧
    s24le_to_int 0 0 128 = -8388608 := by
  refine ⟨?_, by decide, by decide, by decide⟩
  set v : ℕ := b0 + 256 * b1 + 65536 * b2 with hv
  have hvor : b0 ||| (b1 <<< 8) ||| (b2 <<< 16) = v := s24_or_value b0 b1 b2 h0 h1
  have hvlt : v < 2 ^ 24 := by rw [hv]; omega
  unfold s24le_to_int
  rw [hvor]
  dsimp only
  by_cases hbit : 2 ^ 23 ≤ v
  · have htb : v.testBit 23 = true := by
      rw [Nat.testBit_to_div_mod]
      simp only [decide_eq_true_eq]
      omega
    have hand : v &&& 0x800000 ≠ 0 := by
      show v &&& 2 ^ 23 ≠ 0
      rw [Nat.and_two_pow, htb]
      simp
    have hor : v ||| 0xFF000000 = 2 ^ 24 * 255 + v := by
      have : (0xFF000000 : ℕ) = 2 ^ 24 * 255 := by norm_num
      rw [this, Nat.lor_comm, ← Nat.mul_add_lt_is_or hvlt]
    have hmask : (2 ^ 24 * 255 + v) &&& 0xFFFFFFFF = 2 ^ 24 * 255 + v := by
      have h32 : (0xFFFFFFFF : ℕ) = 2 ^ 32 - 1 := by norm_num
      rw [h32, Nat.and_pow_two_sub_one_eq_mod, Nat.mod_eq_of_lt (by omega)]
    rw [if_pos hand, hor, hmask]
    have hge : ¬ (2 ^ 24 * 255 + v < 2 ^ 31) := by omega
    rw [if_neg hge, if_neg (by omega)]
    push_cast
    ring
  · push_neg at hbit
    have htb : v.testBit 23 = false := Nat.testBit_lt_two_pow hbit
    have hand : ¬ (v &&& 0x800000 ≠ 0) := by
      show ¬ (v &&& 2 ^ 23 ≠ 0)
      rw [Nat.and_two_pow, htb]
      simp
    have hmask : v &&& 0xFFFFFFFF = v := by
      have h32 : (0xFFFFFFFF : ℕ) = 2 ^ 32 - 1 := by norm_num
      rw [h32, Nat.and_pow_two_sub_one_eq_mod, Nat.mod_eq_of_lt (by omega)]
    rw [if_neg hand, hmask, if_pos (by omega), if_pos (by omega)]

/-- C9 witness: the general two's-complement characterization applied to
the concrete bytes (0x12, 0x34, 0xD6), i.e. the 24-bit word 0xD63412. -/
theorem s24le_to_int_twos_complement_witness :
    (s24le_to_int 18 52 214 =
      if 18 + 256 * 52 + 65536 * 214 < 2 ^ 23
      then ((18 + 256 * 52 + 65536 * 214 : ℕ) : ℤ)
      else ((18 + 256 * 52 + 65536 * 214 : ℕ) : ℤ) - 2 ^ 24) ∧
    s24le_to_int 255 255 255 = -1 ∧
    s24le_to_int 255 255 127 = 8388607 ∧
    s24le_to_int 0 0 128 = -8388608 :=
  s24le_to_int_twos_complement 18 52 214 (by norm_num) (by norm_num) (by norm_num)

/-! ## RR cleaning (`clean_rr`) -/

/-- Model of `np.abs` on a rational. -/
def npAbs (x : ℚ) : ℚ := if x < 0 then -x else x

/-- Model of `np.median`: sort ascending; middle element for odd length, mean of the
two middle elements for even length (0 for the empty list, which the
guarded call sites never reach). -/
def npMedian (l : List ℚ) : ℚ :=
  let s := l.insertionSort (· ≤ ·)
  let n := l.length
  if n % 2 = 1 then s.getD (n / 2) 0
  else (s.getD (n / 2 - 1) 0 + s.getD (n / 2) 0) / 2

/-- The source's `clean_rr`: keep the intervals within
`4·(MAD + 1e-9)` of the median; if fewer than 3 survive, skip cleaning and
return the input unchanged. -/
def clean_rr (rr : List ℚ) : List ℚ :=
  let med := npMedian rr
  let dev := npMedian (rr.map (fun x => npAbs (x - med))) + 1/1000000000
  let lo := med - 4 * dev
  let hi := med + 4 * dev
  let rr2 := rr.filter (fun x => decide (lo ≤ x ∧ x ≤ hi))
  if 3 ≤ rr2.length then rr2 else rr

/-- Modelled from the spec's wording, for comparison with `clean_rr`
(refinement): drop any interval more than exactly `4×MAD` from the median
(no `1e-9` stabilizer), unless fewer than 3 would survive. -/
def clean_rr_specStrict (rr : List ℚ) : List ℚ :=
  let med := npMedian rr
  let mad := npMedian (rr.map (fun x => npAbs (x - med)))
  let rr2 := rr.filter (fun x => decide (med - 4 * mad ≤ x ∧ x ≤ med + 4 * mad))
  if 3 ≤ rr2.length then rr2 else rr

/-- C4 counterexample: on `rr = [1, 1, 1, 1 + 3·10⁻⁹]` the median is 1 and
the MAD is 0, so "within 4×MAD of the median" keeps only the three `1`s
(3 ≥ 3 survive, so per the claim the result should be `[1, 1, 1]`), but
`clean_rr`'s threshold is `4·(MAD + 1e-9) = 4e-9`, which also keeps the
outlier: the code returns the input unchanged, 4 elements long. -/
theorem clean_rr_counterexample :
    clean_rr [1, 1, 1, 1 + 3/1000000000] = [1, 1, 1, 1 + 3/1000000000] ∧
    clean_rr_specStrict [1, 1, 1, 1 + 3/1000000000] = [1, 1, 1] ∧
    3 ≤ (clean_rr_specStrict [1, 1, 1, 1 + 3/1000000000]).length ∧
    clean_rr [1, 1, 1, 1 + 3/1000000000]
      ≠ clean_rr_specStrict [1, 1, 1, 1 + 3/1000000000] := by
  have hmed : npMedian [1, 1, 1, 1 + 3/1000000000] = 1 := by
    norm_num [npMedian, List.insertionSort, List.orderedInsert, List.getD]
  have hstrict : clean_rr_specStrict [1, 1, 1, 1 + 3/1000000000] = [1, 1, 1] := by
    unfold clean_rr_specStrict
    rw [hmed]
    norm_num [npMedian, npAbs, List.insertionSort, List.orderedInsert, List.getD,
      List.filter]
  have hcode : clean_rr [1, 1, 1, 1 + 3/1000000000] = [1, 1, 1, 1 + 3/1000000000] := by
    unfold clean_rr
    rw [hmed]
    norm_num [npMedian, npAbs, List.insertionSort, List.orderedInsert, List.getD,
      List.filter]
  refine ⟨hcode, hstrict, ?_, ?_⟩
  · rw [hstrict]
    norm_num
  · rw [hcode, hstrict]
    intro h
    exact absurd (congrArg List.length h) (by norm_num)

/-- C4 (amended): with its actual threshold `4·(MAD + 1e-9)`, `clean_rr`
returns the filtered subsequence when at least 3 intervals survive and the
input unchanged otherwise; in particular a series of at least 3 intervals
is never reduced below 3 elements. -/
theorem clean_rr_preserves_three (rr : List ℚ) (h : 3 ≤ rr.length) :
    3 ≤ (clean_rr rr).length ∧
    clean_rr rr =
      (let med := npMedian rr
       let dev := npMedian (rr.map (fun x => npAbs (x - med))) + 1/1000000000
       let rr2 := rr.filter (fun x => decide (med - 4 * dev ≤ x ∧ x ≤ med + 4 * dev))
       if 3 ≤ rr2.length then rr2 else rr) := by
  refine ⟨?_, rfl⟩
  unfold clean_rr
  dsimp only
  split
  · assumption
  · exact h

/-- C4 witness: the amended characterization applied to a concrete
4-element RR series. -/
theorem clean_rr_preserves_three_witness :
    3 ≤ (clean_rr [4/5, 4/5, 4/5, 2]).length ∧
    clean_rr [4/5, 4/5, 4/5, 2] =
      (let med := npMedian [4/5, 4/5, 4/5, 2]
       let dev := npMedian (([4/5, 4/5, 4/5, 2] : List ℚ).map (fun x => npAbs (x - med)))
         + 1/1000000000
       let rr2 := ([4/5, 4/5, 4/5, 2] : List ℚ).filter
         (fun x => decide (med - 4 * dev ≤ x ∧ x ≤ med + 4 * dev))
       if 3 ≤ rr2.length then rr2 else [4/5, 4/5, 4/5, 2]) := by
  exact clean_rr_preserves_three [4/5, 4/5, 4/5, 2] (by norm_num)

/-! ## Time-domain HRV (`time_domain_hrv`) -/

/-- Model of `np.diff`: successive differences. -/
def listDiff (l : List ℚ) : List ℚ := l.zipWith (fun a b => b - a) l.tail

/-- Model of `np.mean` (0 for the empty list, which numpy would make NaN; the
guarded call sites never reach it). -/
def listMean (l : List ℚ) : ℚ := l.sum / l.length

/-- Sample variance with `ddof = 1`, the radicand of `np.std(·, ddof=1)`. -/
def sampleVar (l : List ℚ) : ℚ :=
  let m := listMean l
  (l.map (fun x => (x - m) ^ 2)).sum / ((l.length : ℚ) - 1)

/-- The output record of `time_domain_hrv`. -/
structure TimeDomainResult where
  bpm : Option ℚ
  rr_ms_mean : ℚ
  rr_ms_med : ℚ
  sdnn_ms : Option ℚ
  rmssd_ms : Option ℚ
  pnn50_pct : Option ℚ
  pnn20_pct : Option ℚ
  cvrr : Option ℚ
  sd1_ms : Option ℚ
  sd2_ms : Option ℚ
  n_rr : ℕ

/-- The source's `time_domain_hrv`.  `sqrtQ` stands for the real square
root (`np.std`/`np.sqrt`), passed in abstractly: every verified property
(nullness of each statistic) is independent of its values. -/
def time_domain_hrv (sqrtQ : ℚ → ℚ) (rr : List ℚ) : TimeDomainResult :=
  let rr_ms := rr.map (· * 1000)
  let diff := listDiff rr_ms
  let med := npMedian rr
  let bpm : Option ℚ := if 0 < med then some (60 / med) else none
  let sdnn : Option ℚ :=
    if 2 ≤ rr_ms.length then some (sqrtQ (sampleVar rr_ms)) else none
  let rmssd : Option ℚ :=
    if 2 ≤ diff.length then some (sqrtQ (listMean (diff.map (· ^ 2)))) else none
  let pnn50 : Option ℚ :=
    if 2 ≤ diff.length then
      some (listMean (diff.map (fun d => if 50 < npAbs d then 1 else 0)) * 100)
    else none
  let pnn20 : Option ℚ :=
    if 2 ≤ diff.length then
      some (listMean (diff.map (fun d => if 20 < npAbs d then 1 else 0)) * 100)
    else none
  let mean_rr := listMean rr
  let cvrr : Option ℚ :=
    if 2 ≤ rr.length then some (sqrtQ (sampleVar rr) / (mean_rr + 1/1000000000))
    else none
  let sd1 : Option ℚ :=
    if 3 ≤ rr_ms.length then
      some (sqrtQ (sampleVar
        (List.zipWith (fun a b => (b - a) / sqrtQ 2) rr_ms.dropLast rr_ms.tail)))
    else none
  let sd2 : Option ℚ :=
    if 3 ≤ rr_ms.length then
      some (sqrtQ (sampleVar
        (List.zipWith (fun a b => (b + a) / sqrtQ 2) rr_ms.dropLast rr_ms.tail)))
    else none
  { bpm := bpm
    rr_ms_mean := listMean rr_ms
    rr_ms_med := npMedian rr_ms
    sdnn_ms := sdnn
    rmssd_ms := rmssd
    pnn50_pct := pnn50
    pnn20_pct := pnn20
    cvrr := cvrr
    sd1_ms := sd1
    sd2_ms := sd2
    n_rr := rr.length }

/-- C7 counterexample: on the 2-element series `[1, 1]` the code leaves
RMSSD, pNN50 and pNN20 null (they require at least 2 successive
differences, i.e. 3 RR intervals), even though SDNN and CVRR — computed
from the same 2-element series — are non-null; the claim that every
dispersion statistic is non-null at ≥ 2 elements is false. -/
theorem time_domain_hrv_counterexample :
    (time_domain_hrv id [1, 1]).rmssd_ms = none ∧
    (time_domain_hrv id [1, 1]).pnn50_pct = none ∧
    (time_domain_hrv id [1, 1]).pnn20_pct = none ∧
    (time_domain_hrv id [1, 1]).sdnn_ms ≠ none ∧
    (time_domain_hrv id [1, 1]).cvrr ≠ none ∧
    2 ≤ ([1, 1] : List ℚ).length := by
  refine ⟨?_, ?_, ?_, ?_, ?_, ?_⟩ <;>
    simp [time_domain_hrv, listDiff]

lemma listDiff_length (l : List ℚ) : (listDiff l).length = l.length - 1 := by
  unfold listDiff
  rw [List.length_zipWith, List.length_tail]
  omega

/-- C7 (amended): SDNN and CVRR are non-null exactly when the RR series
has at least 2 elements; RMSSD, pNN50 and pNN20 are non-null exactly when
it has at least 3 elements (at least 2 successive differences); Poincaré
SD1/SD2 are non-null exactly when it has at least 3 elements.  Each
statistic is null exactly when its minimum sample-count precondition, so
amended, is unmet. -/
theorem time_domain_hrv_nullness (sqrtQ : ℚ → ℚ) (rr : List ℚ) :
    ((time_domain_hrv sqrtQ rr).sdnn_ms ≠ none ↔ 2 ≤ rr.length) ∧
    ((time_domain_hrv sqrtQ rr).cvrr ≠ none ↔ 2 ≤ rr.length) ∧
    ((time_domain_hrv sqrtQ rr).rmssd_ms ≠ none ↔ 3 ≤ rr.length) ∧
    ((time_domain_hrv sqrtQ rr).pnn50_pct ≠ none ↔ 3 ≤ rr.length) ∧
    ((time_domain_hrv sqrtQ rr).pnn20_pct ≠ none ↔ 3 ≤ rr.length) ∧
    ((time_domain_hrv sqrtQ rr).sd1_ms ≠ none ↔ 3 ≤ rr.length) ∧
    ((time_domain_hrv sqrtQ rr).sd2_ms ≠ none ↔ 3 ≤ rr.length) := by
  have hdiff : (listDiff (rr.map (· * 1000))).length = rr.length - 1 := by
    rw [listDiff_length, List.length_map]
  unfold time_domain_hrv
  dsimp only
  rw [hdiff, List.length_map]
  refine ⟨?_, ?_, ?_, ?_, ?_, ?_, ?_⟩ <;> (split <;> simp_all <;> omega)

/-! ## ECG1 bundle parsing (`parse_ecg1_bundle`) -/

/-- The frame-reading loop of `parse_ecg1_bundle`: starting at `idx`, read
up to `count` frames, each as a 2-byte little-endian length `L` followed by
`L` payload bytes; stop (returning the frames collected so far) as soon as
a length field or a frame body would run past the end of the payload. -/
def parseFrames (payload : List ℕ) : ℕ → ℕ → List (List ℕ)
  | _, 0 => []
  | idx, k + 1 =>
    if payload.length < idx + 2 then []
    else
      let L := payload.getD idx 0 ||| (payload.getD (idx + 1) 0 <<< 8)
      if payload.length < idx + 2 + L then []
      else ((payload.drop (idx + 2)).take L) :: parseFrames payload (idx + 2 + L) k

/-- The source's `parse_ecg1_bundle`: reject payloads shorter than 9
bytes or without the `b"ECG1"` magic tag; read the frame count at byte 8
and parse frames from byte 9. -/
def parse_ecg1_bundle (payload : List ℕ) : List (List ℕ) :=
  if payload.length < 9 ∨ payload.take 4 ≠ [69, 67, 71, 49] then []
  else parseFrames payload 9 (payload.getD 8 0)

/-- C6 counterexample: a magic-accepted bundle announcing 2 frames whose
second frame's length field (5) overruns the 16-byte payload.  The code
returns the first, fully parsed frame `[170]` — a non-empty list — not the
empty list the claim requires on a bounds mismatch. -/
theorem parse_ecg1_bundle_counterexample :
    parse_ecg1_bundle [69, 67, 71, 49, 0, 0, 0, 0, 2, 1, 0, 170, 5, 0, 1, 2]
      = [[170]] ∧
    ([69, 67, 71, 49, 0, 0, 0, 0, 2, 1, 0, 170, 5, 0, 1, 2] : List ℕ).take 4
      = [69, 67, 71, 49] ∧
    (([69, 67, 71, 49, 0, 0, 0, 0, 2, 1, 0, 170, 5, 0, 1, 2] : List ℕ).length <
      12 + 2 + (List.getD [69, 67, 71, 49, 0, 0, 0, 0, 2, 1, 0, 170, 5, 0, 1, 2] 12 0
        ||| (List.getD [69, 67, 71, 49, 0, 0, 0, 0, 2, 1, 0, 170, 5, 0, 1, 2] 13 0 <<< 8))) ∧
    parse_ecg1_bundle [69, 67, 71, 49, 0, 0, 0, 0, 2, 1, 0, 170, 5, 0, 1, 2] ≠ [] := by
  refine ⟨?_, ?_, ?_, ?_⟩ <;> decide

lemma parseFrames_sound (payload : List ℕ) :
    ∀ (k idx : ℕ) (f : List ℕ), f ∈ parseFrames payload idx k →
      ∃ j L, L = payload.getD j 0 ||| (payload.getD (j + 1) 0 <<< 8) ∧
        j + 2 + L ≤ payload.length ∧ f = (payload.drop (j + 2)).take L := by
  intro k
  induction k with
  | zero =>
    intro idx f hf
    simp [parseFrames] at hf
  | succ k ih =>
    intro idx f hf
    unfold parseFrames at hf
    split at hf
    · simp at hf
    · dsimp only at hf
      split at hf
      · simp at hf
      · rcases List.mem_cons.mp hf with hhead | htail
        · exact ⟨idx, _, rfl, by omega, hhead⟩
        · exact ih _ f htail

/-- C6 (amended): for every payload accepted by the magic-tag check, every
frame the parser returns was read as a 2-byte little-endian length prefix
`L` at some offset `j` followed by exactly the `L` payload bytes there,
lying entirely within the payload; on a length/bounds mismatch the parser
stops and returns the frames parsed so far — a possibly non-empty, possibly
empty list — rather than raising. -/
theorem parse_ecg1_bundle_frames_sound (payload : List ℕ) (f : List ℕ)
    (hf : f ∈ parse_ecg1_bundle payload) :
    ∃ j L, L = payload.getD j 0 ||| (payload.getD (j + 1) 0 <<< 8) ∧
      j + 2 + L ≤ payload.length ∧ f = (payload.drop (j + 2)).take L := by
  unfold parse_ecg1_bundle at hf
  split at hf
  · simp at hf
  · exact parseFrames_sound payload _ 9 f hf

/-- C6 witness: the frame-soundness characterization applied to a concrete
well-formed single-frame bundle. -/
theorem parse_ecg1_bundle_frames_sound_witness :
    ∃ j L, L = List.getD [69, 67, 71, 49, 0, 0, 0, 0, 1, 1, 0, 7] j 0
        ||| (List.getD [69, 67, 71, 49, 0, 0, 0, 0, 1, 1, 0, 7] (j + 1) 0 <<< 8) ∧
      j + 2 + L ≤ ([69, 67, 71, 49, 0, 0, 0, 0, 1, 1, 0, 7] : List ℕ).length ∧
      [7] = (([69, 67, 71, 49, 0, 0, 0, 0, 1, 1, 0, 7] : List ℕ).drop (j + 2)).take L :=
  parse_ecg1_bundle_frames_sound [69, 67, 71, 49, 0, 0, 0, 0, 1, 1, 0, 7] [7] (by decide)

/-! ## Frequency-domain HRV (`interpolate_tachogram`, `freq_domain_hrv`) -/

/-- Model of `np.cumsum` with a running accumulator. -/
def cumsumFrom (a : ℚ) : List ℚ → List ℚ
  | [] => []
  | x :: xs => (a + x) :: cumsumFrom (a + x) xs

/-- Model of `np.cumsum`. -/
def cumsum (l : List ℚ) : List ℚ := cumsumFrom 0 l

/-- Model of `np.interp` on a list of (x, y) nodes: constant extrapolation outside
the node range, linear interpolation between consecutive nodes. -/
def interpPts : List (ℚ × ℚ) → ℚ → ℚ
  | [], _ => 0
  | [(_, f0)], _ => f0
  | (x0, f0) :: (x1, f1) :: rest, x =>
    if x ≤ x0 then f0
    else if x ≤ x1 then f0 + (f1 - f0) * (x - x0) / (x1 - x0)
    else interpPts ((x1, f1) :: rest) x

/-- Model of `np.interp(x, xp, fp)`. -/
def npInterp (xp fp : List ℚ) (x : ℚ) : ℚ := interpPts (xp.zip fp) x

/-- The source's `interpolate_tachogram`: cumulative RR times re-zeroed
at the first point; `None` when the resulting span is below 10 s, else the
uniform 4 Hz grid (`np.arange(0, span, 0.25)`) with the mean-removed
interpolated tachogram. -/
def interpolate_tachogram (rr : List ℚ) : Option (List ℚ × List ℚ) :=
  let t := cumsum rr
  let t0 := t.headD 0
  let tz := t.map (· - t0)
  let tEnd := tz.getLastD 0
  if tEnd < 10 then none
  else
    let tt := (List.range (Nat.ceil (4 * tEnd))).map (fun (k : ℕ) => (k : ℚ) / 4)
    let rrI := tt.map (npInterp tz rr)
    let m := listMean rrI
    some (tt, rrI.map (· - m))

/-- Model of `np.trapz` over (x, y) points. -/
def trapz : List (ℚ × ℚ) → ℚ
  | [] => 0
  | [_] => 0
  | (x0, y0) :: (x1, y1) :: rest => (y0 + y1) * (x1 - x0) / 2 + trapz ((x1, y1) :: rest)

/-- The `bandpower` helper of `freq_domain_hrv` over the Welch frequency
grid `f_k = 4·k/nperseg` for `k = 0 .. nperseg/2` (the one-sided bins of
`welch(·, fs=4.0, nperseg)`): `None` when no bin satisfies
`lo ≤ f_k < hi`, else the trapezoidal integral of the PSD over the band.
`psd k` stands for the Welch PSD estimate at bin `k` (floating-point
spectral numerics, abstracted; nullness depends only on the grid). -/
def bandpower (psd : ℕ → ℚ) (nperseg : ℕ) (lo hi : ℚ) : Option ℚ :=
  let sel := (List.range (nperseg / 2 + 1)).filter
    (fun (k : ℕ) => decide (lo ≤ 4 * (k : ℚ) / (nperseg : ℚ)
      ∧ 4 * (k : ℚ) / (nperseg : ℚ) < hi))
  if sel.isEmpty then none
  else some (trapz (sel.map (fun (k : ℕ) => (4 * (k : ℚ) / (nperseg : ℚ), psd k))))

/-- The output record of `freq_domain_hrv`. -/
structure FreqDomainResult where
  lf_power : Option ℚ
  hf_power : Option ℚ
  lf_hf : Option ℚ

/-- The source's `freq_domain_hrv`: all-`None` when the tachogram span
is insufficient; else LF = band [0.04, 0.15), HF = band [0.15, 0.40) over
the Welch grid with `nperseg = min(len(rr_i), 256)`; the ratio is `None`
when either band is `None` or HF ≤ 1e-12. -/
def freq_domain_hrv (psd : ℕ → ℚ) (rr : List ℚ) : FreqDomainResult :=
  match interpolate_tachogram rr with
  | none => ⟨none, none, none⟩
  | some (_, rrI) =>
    let nperseg := min rrI.length 256
    let lf := bandpower psd nperseg (1/25) (3/20)
    let hf := bandpower psd nperseg (3/20) (2/5)
    let lfhf : Option ℚ :=
      match lf, hf with
      | some l, some h => if h ≤ 1/1000000000000 then none else some (l / h)
      | _, _ => none
    ⟨lf, hf, lfhf⟩

lemma cumsumFrom_map_sub_getLastD (c : ℚ) :
    ∀ (l : List ℚ) (a d : ℚ), l ≠ [] →
      ((cumsumFrom a l).map (fun t => t - c)).getLastD d = a + l.sum - c := by
  intro l
  induction l with
  | nil => intro a d h; exact absurd rfl h
  | cons x xs ih =>
    intro a d _
    cases xs with
    | nil => simp [cumsumFrom]
    | cons y t =>
      have hne : (y :: t) ≠ [] := by simp
      show ((cumsumFrom a (x :: y :: t)).map (fun t => t - c)).getLastD d = _
      rw [show cumsumFrom a (x :: y :: t) = (a + x) :: cumsumFrom (a + x) (y :: t)
        from rfl]
      rw [List.map_cons, List.getLastD_cons, ih (a + x) (a + x - c) hne]
      simp [List.sum_cons]
      ring

lemma tachogram_span (rr : List ℚ) (h : rr ≠ []) :
    ((cumsum rr).map (fun t => t - (cumsum rr).headD 0)).getLastD 0
      = rr.sum - rr.headD 0 := by
  cases rr with
  | nil => exact absurd rfl h
  | cons x xs =>
    rw [show (cumsum (x :: xs)).headD 0 = 0 + x from rfl]
    rw [show cumsum (x :: xs) = cumsumFrom 0 (x :: xs) from rfl]
    rw [cumsumFrom_map_sub_getLastD (0 + x) (x :: xs) 0 0 (by simp)]
    simp

lemma interpolate_tachogram_none_iff (rr : List ℚ) (h : rr ≠ []) :
    interpolate_tachogram rr = none ↔ rr.sum - rr.headD 0 < 10 := by
  unfold interpolate_tachogram
  dsimp only
  rw [tachogram_span rr h]
  split
  · simp_all
  · simp_all

lemma interpolate_tachogram_some (rr : List ℚ) (hne : rr ≠ [])
    (h10 : 10 ≤ rr.sum - rr.headD 0) :
    ∃ tt rrI, interpolate_tachogram rr = some (tt, rrI) ∧
      rrI.length = Nat.ceil (4 * (rr.sum - rr.headD 0)) := by
  unfold interpolate_tachogram
  dsimp only
  rw [tachogram_span rr hne]
  rw [if_neg (not_lt.mpr h10)]
  exact ⟨_, _, rfl, by simp only [List.length_map, List.length_range]⟩

lemma bandpower_ne_none (psd : ℕ → ℚ) (np : ℕ) (lo hi : ℚ) (k : ℕ)
    (hk : k ≤ np / 2) (hlo : lo ≤ 4 * (k : ℚ) / (np : ℚ))
    (hhi : 4 * (k : ℚ) / (np : ℚ) < hi) :
    bandpower psd np lo hi ≠ none := by
  unfold bandpower
  dsimp only
  have hmem : k ∈ (List.range (np / 2 + 1)).filter
      (fun (k : ℕ) => decide (lo ≤ 4 * (k : ℚ) / (np : ℚ)
        ∧ 4 * (k : ℚ) / (np : ℚ) < hi)) := by
    refine List.mem_filter.mpr ⟨List.mem_range.mpr (by omega), ?_⟩
    simp only [decide_eq_true_eq]
    exact ⟨hlo, hhi⟩
  have hne := List.ne_nil_of_mem hmem
  rw [if_neg (by simpa [List.isEmpty_iff] using hne)]
  simp

lemma lf_band_witness (np : ℕ) (h40 : 40 ≤ np) (h256 : np ≤ 256) :
    ∃ k, k ≤ np / 2 ∧ 1/25 ≤ 4 * (k : ℚ) / (np : ℚ)
      ∧ 4 * (k : ℚ) / (np : ℚ) < 3/20 := by
  have hnp : (0 : ℚ) < (np : ℚ) := by
    have h : 0 < np := by omega
    exact_mod_cast h
  refine ⟨(np + 99) / 100, by omega, ?_, ?_⟩
  · rw [le_div_iff₀ hnp]
    have h : np ≤ 100 * ((np + 99) / 100) := by omega
    have h' : (np : ℚ) ≤ 100 * (((np + 99) / 100 : ℕ) : ℚ) := by exact_mod_cast h
    linarith
  · rw [div_lt_iff₀ hnp]
    have h : 80 * ((np + 99) / 100) < 3 * np := by omega
    have h' : 80 * (((np + 99) / 100 : ℕ) : ℚ) < 3 * (np : ℚ) := by exact_mod_cast h
    linarith

lemma hf_band_witness (np : ℕ) (h40 : 40 ≤ np) (h256 : np ≤ 256) :
    ∃ k, k ≤ np / 2 ∧ 3/20 ≤ 4 * (k : ℚ) / (np : ℚ)
      ∧ 4 * (k : ℚ) / (np : ℚ) < 2/5 := by
  have hnp : (0 : ℚ) < (np : ℚ) := by
    have h : 0 < np := by omega
    exact_mod_cast h
  refine ⟨(3 * np + 79) / 80, ?_, ?_, ?_⟩
  · omega
  · rw [le_div_iff₀ hnp]
    have h : 3 * np ≤ 80 * ((3 * np + 79) / 80) := by omega
    have h' : 3 * (np : ℚ) ≤ 80 * (((3 * np + 79) / 80 : ℕ) : ℚ) := by exact_mod_cast h
    linarith
  · rw [div_lt_iff₀ hnp]
    have h : 10 * ((3 * np + 79) / 80) < np := by omega
    have h' : 10 * (((3 * np + 79) / 80 : ℕ) : ℚ) < (np : ℚ) := by exact_mod_cast h
    linarith

/-- C8 counterexample: for `rr = [2, 2, 2, 2, 2, 1]` the cumulative RR
duration (its sum) is 11 s ≥ 10 s, yet LF and HF are null: the code
re-zeroes the cumulative times at the *first* point, so its gate compares
`sum − rr[0] = 9 s` against 10 s, not the full 11 s sum. -/
theorem freq_domain_hrv_counterexample :
    (freq_domain_hrv (fun _ => 0) [2, 2, 2, 2, 2, 1]).lf_power = none ∧
    (freq_domain_hrv (fun _ => 0) [2, 2, 2, 2, 2, 1]).hf_power = none ∧
    (freq_domain_hrv (fun _ => 0) [2, 2, 2, 2, 2, 1]).lf_hf = none ∧
    (10 : ℚ) ≤ ([2, 2, 2, 2, 2, 1] : List ℚ).sum := by
  have hnone : interpolate_tachogram [2, 2, 2, 2, 2, 1] = none :=
    (interpolate_tachogram_none_iff _ (by simp)).mpr
      (by norm_num [List.sum_cons, List.headD])
  refine ⟨?_, ?_, ?_, by norm_num [List.sum_cons]⟩ <;>
    (unfold freq_domain_hrv; rw [hnone])

/-- C8 (amended): `freq_domain_hrv` returns non-null LF and HF band powers
exactly when the *re-zeroed* cumulative RR duration — the sum of all
intervals minus the first one — is at least 10 s; below that threshold
`lf_power`, `hf_power` and `lf_hf` are all null. -/
theorem freq_domain_hrv_nullness (psd : ℕ → ℚ) (rr : List ℚ) (hne : rr ≠ []) :
    (rr.sum - rr.headD 0 < 10 →
      (freq_domain_hrv psd rr).lf_power = none ∧
      (freq_domain_hrv psd rr).hf_power = none ∧
      (freq_domain_hrv psd rr).lf_hf = none) ∧
    (10 ≤ rr.sum - rr.headD 0 →
      (freq_domain_hrv psd rr).lf_power ≠ none ∧
      (freq_domain_hrv psd rr).hf_power ≠ none) := by
  constructor
  · intro hlt
    have hnone := (interpolate_tachogram_none_iff rr hne).mpr hlt
    refine ⟨?_, ?_, ?_⟩ <;> (unfold freq_domain_hrv; rw [hnone])
  · intro h10
    obtain ⟨tt, rrI, hsome, hlen⟩ := interpolate_tachogram_some rr hne h10
    have h40 : 40 ≤ min rrI.length 256 := by
      have hc : (40 : ℕ) ≤ Nat.ceil (4 * (rr.sum - rr.headD 0)) := by
        have : ((40 : ℕ) : ℚ) ≤ 4 * (rr.sum - rr.headD 0) := by push_cast; linarith
        calc (40 : ℕ) = Nat.ceil ((40 : ℕ) : ℚ) := by rw [Nat.ceil_natCast]
          _ ≤ _ := Nat.ceil_le_ceil this
      omega
    have h256 : min rrI.length 256 ≤ 256 := min_le_right _ _
    obtain ⟨k1, hk1, hlo1, hhi1⟩ := lf_band_witness _ h40 h256
    obtain ⟨k2, hk2, hlo2, hhi2⟩ := hf_band_witness _ h40 h256
    constructor <;> (unfold freq_domain_hrv; rw [hsome]; dsimp only)
    · exact bandpower_ne_none psd _ _ _ k1 hk1 hlo1 hhi1
    · exact bandpower_ne_none psd _ _ _ k2 hk2 hlo2 hhi2

/-- C8 witness: thirteen 1 s intervals give a re-zeroed span of 12 s ≥
10 s, and indeed both band powers are non-null. -/
theorem freq_domain_hrv_nullness_witness :
    (freq_domain_hrv (fun _ => 0)
        [1, 1, 1, 1, 1, 1, 1, 1, 1, 1, 1, 1, 1]).lf_power ≠ none ∧
    (freq_domain_hrv (fun _ => 0)
        [1, 1, 1, 1, 1, 1, 1, 1, 1, 1, 1, 1, 1]).hf_power ≠ none :=
  (freq_domain_hrv_nullness (fun _ => 0)
      [1, 1, 1, 1, 1, 1, 1, 1, 1, 1, 1, 1, 1] (by simp)).2
    (by norm_num [List.sum_cons, List.headD])

end Biomed
